import Mathlib

/-!
Shallow embedding of `src/excel-processor-service/main.py` (FastAPI service that
ingests an Excel upload, normalizes its rows, persists them to PostgreSQL in
batches of 5000 from a background task, and tracks per-job progress in the
module-level dict `processing_progress`).

Conventions of the embedding:
* a pandas cell is `Option String` (`none` models NaN / a missing value; the
  frame is read with `dtype=str`, so every non-null cell is a string);
* the progress dict is a function `Nat → Option Snapshot`;
* the background persister is modelled as the list of effects it performs
  (batch inserts, progress-dict writes, commit/rollback, temp-file unlink),
  produced in program order, together with an interpreter for the database
  effects; the index of the batch whose `execute_values` raises is an
  explicit `Option Nat` parameter.
-/

namespace ExcelProcessor

/-- Status strings stored in the `"status"` field of a progress dict entry. -/
inductive Status where
  | processing
  | completed
  | error
  deriving DecidableEq, Repr

/-- Progress dict entry, as written at `main.py` lines 207-212, 227-232,
243-249 and 365-370.  `errorDetail` models the `"error"` key, present only in
the error entry. -/
structure Snapshot where
  progress : ℚ
  total : Nat
  processed : Nat
  status : Status
  errorDetail : Option String
  deriving DecidableEq, Repr

/-- Python `round(x, 1)`: round to one decimal, ties to even (banker's
rounding), modelled on exact rationals. -/
def round1 (x : ℚ) : ℚ :=
  let y : ℚ := 10 * x
  let n : ℤ := ⌊y⌋
  let frac : ℚ := y - n
  if frac < 1 / 2 then (n : ℚ) / 10
  else if 1 / 2 < frac then ((n + 1 : ℤ) : ℚ) / 10
  else if n % 2 = 0 then (n : ℚ) / 10
  else ((n + 1 : ℤ) : ℚ) / 10

/-- Literal tokens converted to null when reading the sheet
(`na_values=['', 'NULL', 'null', 'None']`, line 315) and again by
`df.replace(['', 'NULL', 'null', 'None', pd.NA], None)` (line 335). -/
def naTokens : List String := ["", "NULL", "null", "None"]

/-- Effect of the na-token replacement on one cell. -/
def cleanCell : Option String → Option String
  | none => none
  | some s => if s ∈ naTokens then none else some s

/-- Python `str.strip()`: remove leading and trailing whitespace, written
directly on the character list so that it evaluates inside the kernel. -/
def pyStrip (s : String) : String :=
  ⟨((s.data.dropWhile Char.isWhitespace).reverse.dropWhile Char.isWhitespace).reverse⟩

/-- Python truthiness test `v is not None and (not isinstance(v, str) or
v.strip())` used at lines 339 and 377.  With `dtype=str` every non-null value
is a string, so the test is: non-null and non-blank after stripping. -/
def isRealValue : Option String → Bool
  | none => false
  | some s => pyStrip s != ""

/-- One row after `df.replace(...)` / `to_dict('records')`: the na tokens of
every cell are mapped to null (line 335).  A row is a label-keyed association
list, in column order. -/
def normalizeRow (r : List (String × Option String)) : List (String × Option String) :=
  r.map fun kv => (kv.1, cleanCell kv.2)

/-- Whole-frame version of `normalizeRow` (line 335-336). -/
def normalizeRows (rows : List (List (String × Option String))) :
    List (List (String × Option String)) :=
  rows.map normalizeRow

/-- Row-survival test of line 339:
`any(v is not None and (not isinstance(v, str) or v.strip()) for v in r.values())`. -/
def rowSurvives (r : List (String × Option String)) : Bool :=
  r.any fun kv => isRealValue kv.2

/-- Filter of line 339: keep the records that have at least one real value. -/
def filterRecords (records : List (List (String × Option String))) :
    List (List (String × Option String)) :=
  records.filter rowSurvives

/-- Sparse payload of line 377:
`{k: v for k, v in record.items() if v is not None and (... or v.strip())}`. -/
def cleanedRecord (r : List (String × Option String)) : List (String × Option String) :=
  r.filter fun kv => isRealValue kv.2

/-- One tuple appended to `all_values` at lines 379-384 (the `createdAt`
timestamp added at insert time is not part of the tuple and is omitted). -/
structure RecordValue where
  user_id : Nat
  excel_id : Nat
  rowData : List (String × Option String)
  rowIndex : Nat
  deriving DecidableEq, Repr

/-- Loop of lines 374-385: `row_index` starts at 1 and is incremented only
when a record with a non-empty cleaned payload is appended. -/
def buildAllValuesAux (user_id excel_id : Nat) :
    Nat → List (List (String × Option String)) → List RecordValue
  | _, [] => []
  | row_index, record :: rest =>
    let cleaned_record := cleanedRecord record
    if cleaned_record.isEmpty then
      buildAllValuesAux user_id excel_id row_index rest
    else
      ⟨user_id, excel_id, cleaned_record, row_index⟩ ::
        buildAllValuesAux user_id excel_id (row_index + 1) rest

/-- Construction of `all_values` from the filtered records (lines 373-385). -/
def buildAllValues (user_id excel_id : Nat)
    (records : List (List (String × Option String))) : List RecordValue :=
  buildAllValuesAux user_id excel_id 1 records

/-- Header synthesis of lines 322-323:
`str(col).strip() if pd.notna(col) else f"Columna_{i+1}"`.  A raw column label
is `Option String` (`none` models NaN). -/
def headerLabel (i : Nat) (col : Option String) : String :=
  match col with
  | some s => pyStrip s
  | none => "Columna_" ++ toString (i + 1)

/-- Recursion underlying `rawHeaders`, carrying the 0-based enumerate index. -/
def rawHeadersAux (i : Nat) : List (Option String) → List String
  | [] => []
  | c :: cs => headerLabel i c :: rawHeadersAux (i + 1) cs

/-- List comprehension of lines 322-323 over `enumerate(df.columns)`. -/
def rawHeaders (cols : List (Option String)) : List String :=
  rawHeadersAux 0 cols

/-- Python `seen[header] += 1` on the dict modelled as an association list. -/
def bumpSeen (seen : List (String × Nat)) (k : String) : List (String × Nat) :=
  seen.map fun p => if p.1 = k then (p.1, p.2 + 1) else p

/-- Deduplication loop of lines 326-332.  The loop reads the original value at
each position (it only ever overwrites the position it is visiting), looks it
up in `seen`, and either records a first occurrence or appends `_{seen[h]}`
and increments the counter. -/
def cleanHeadersAux : List String → List (String × Nat) → List String
  | [], _ => []
  | header :: rest, seen =>
    match seen.lookup header with
    | some n => (header ++ "_" ++ toString n) :: cleanHeadersAux rest (bumpSeen seen header)
    | none => header :: cleanHeadersAux rest ((header, 1) :: seen)

/-- Duplicate-label cleanup of lines 325-332, starting from an empty dict. -/
def cleanHeaders (headers : List String) : List String :=
  cleanHeadersAux headers []

/-- Label with the numeric suffix used by the dedup loop: unchanged on first
occurrence, `_c` appended when `c` prior occurrences exist. -/
def suffixedLabel (header : String) (c : Nat) : String :=
  if c = 0 then header else header ++ "_" ++ toString c

/-- Specification-shaped restatement of the dedup loop: position `i` gets the
suffix counting the occurrences of the same original label strictly before
`i` (the accumulator is the processed prefix). -/
def cleanHeadersSpec : List String → List String → List String
  | _, [] => []
  | p, header :: rest =>
    suffixedLabel header (p.count header) :: cleanHeadersSpec (p ++ [header]) rest

/-- Batch size of the background persister (`BATCH_SIZE = 5000`, line 188). -/
def BATCH_SIZE : Nat := 5000

/-- Value of `total_batches = (len(all_values) + BATCH_SIZE - 1) // BATCH_SIZE`
(line 189); it also equals the number of iterations of
`range(0, len(all_values), BATCH_SIZE)` (line 191). -/
def numBatches (n : Nat) : Nat :=
  (n + BATCH_SIZE - 1) / BATCH_SIZE

/-- Per-batch progress entry written at lines 204-213, for the batch starting
at offset `i` into a list of `n` records: `processed = min(i + BATCH_SIZE, n)`
and `progress = round(min(100, processed / n * 100), 1)`. -/
def procSnapshot (n total i : Nat) : Snapshot :=
  let processed := min (i + BATCH_SIZE) n
  { progress := round1 (min 100 ((processed : ℚ) / (n : ℚ) * 100))
    total := total
    processed := processed
    status := Status.processing
    errorDetail := none }

/-- Terminal entry written on success (lines 227-233). -/
def completedSnapshot (n total : Nat) : Snapshot :=
  { progress := 100, total := total, processed := n
    status := Status.completed, errorDetail := none }

/-- Terminal entry written on failure (lines 243-249): every count is zeroed
and the exception text is stored under `"error"`. -/
def errorSnapshot (errMsg : String) : Snapshot :=
  { progress := 0, total := 0, processed := 0
    status := Status.error, errorDetail := some errMsg }

/-- Entry registered before the background task starts (lines 365-370). -/
def initialSnapshot (total : Nat) : Snapshot :=
  { progress := 0, total := total, processed := 0
    status := Status.processing, errorDetail := none }

/-- Observable effects of `process_records_background`, in program order. -/
inductive BGEvent where
  | wrote (batch : List RecordValue)
  | progressUpdate (snap : Snapshot)
  | commit
  | rollback
  | unlinkTmp
  deriving DecidableEq, Repr

/-- Body of the loop `for i in range(0, len(all_values), BATCH_SIZE)`
(lines 191-221) followed by the final commit and terminal update
(lines 224-236) or, when `execute_values` raises on the batch whose 0-based
index is `failAt`, by the rollback and error update of the `except` block
(lines 240-249).  `m` counts the remaining loop iterations, `i` is the loop
offset (a multiple of `BATCH_SIZE`) and `k` the 0-based batch index. -/
def runLoopN (values : List RecordValue) (total : Nat) (failAt : Option Nat)
    (errMsg : String) : Nat → Nat → Nat → List BGEvent
  | 0, _, _ =>
    [BGEvent.commit, BGEvent.progressUpdate (completedSnapshot values.length total)]
  | m + 1, i, k =>
    if failAt = some k then
      [BGEvent.rollback, BGEvent.progressUpdate (errorSnapshot errMsg)]
    else
      BGEvent.wrote ((values.drop i).take BATCH_SIZE) ::
        BGEvent.progressUpdate (procSnapshot values.length total i) ::
          runLoopN values total failAt errMsg m (i + BATCH_SIZE) (k + 1)

/-- Full effect trace of one run of `process_records_background`
(lines 181-260): the batch loop, then the unconditional `finally` block that
deletes the temporary file (lines 256-260). -/
def bgEvents (values : List RecordValue) (total : Nat) (failAt : Option Nat)
    (errMsg : String) : List BGEvent :=
  runLoopN values total failAt errMsg (numBatches values.length) 0 0 ++ [BGEvent.unlinkTmp]

/-- Database state: the rows durably committed to `dynamic_records`, and the
rows inserted inside the still-open transaction. -/
structure DBState where
  committed : List RecordValue
  pending : List RecordValue
  deriving DecidableEq, Repr

/-- Interpretation of one background-task effect on the database:
`execute_values` adds to the open transaction, `conn.commit()` (line 224)
makes the transaction durable, `conn.rollback()` (line 242) discards it. -/
def applyEvent (st : DBState) : BGEvent → DBState
  | BGEvent.wrote batch => { st with pending := st.pending ++ batch }
  | BGEvent.commit => { committed := st.committed ++ st.pending, pending := [] }
  | BGEvent.rollback => { st with pending := [] }
  | BGEvent.progressUpdate _ => st
  | BGEvent.unlinkTmp => st

/-- Replay of an effect list against a database holding `c0`, starting with an
empty transaction (the connection comes fresh from the pool, line 185). -/
def replay (c0 : List RecordValue) (events : List BGEvent) : DBState :=
  events.foldl applyEvent { committed := c0, pending := [] }

/-- Progress-dict writes contained in an effect list, in order. -/
def snapWrites (events : List BGEvent) : List Snapshot :=
  events.filterMap fun e =>
    match e with
    | BGEvent.progressUpdate s => some s
    | _ => none

/-- Sequence of snapshots stored under one job id over its lifetime: the
registration at lines 365-370, then every write the background task performs. -/
def jobSnapTrace (values : List RecordValue) (total : Nat) (failAt : Option Nat)
    (errMsg : String) : List Snapshot :=
  initialSnapshot total :: snapWrites (bgEvents values total failAt errMsg)

/-- Type of `processing_progress` (line 42): a mapping from excel id to its
progress dict entry. -/
abbrev Store := Nat → Option Snapshot

/-- Dict assignment `processing_progress[excel_id] = snap`. -/
def setStore (st : Store) (id : Nat) (s : Snapshot) : Store :=
  fun j => if j = id then some s else st j

/-- Any sequence of dict assignments, applied in order.  Assignment is the
only mutation of `processing_progress` anywhere in the source (lines 213, 233,
243, 365, 417); there is no `del`, `pop` or timer. -/
def applyStoreWrites (st : Store) (ws : List (Nat × Snapshot)) : Store :=
  ws.foldl (fun acc w => setStore acc w.1 w.2) st

/-- Store contents after one background run for job `id` applies its progress
writes on top of `st`. -/
def storeAfterBG (st : Store) (id : Nat) (values : List RecordValue) (total : Nat)
    (failAt : Option Nat) (errMsg : String) : Store :=
  applyStoreWrites st ((snapWrites (bgEvents values total failAt errMsg)).map fun s => (id, s))

/-- Result of `GET /progress/{excel_id}`: the stored entry, or the sentinel
`{"progress": 0, "status": "not_found"}` (lines 174-179). -/
inductive ProgressResponse where
  | found (s : Snapshot)
  | notFound
  deriving DecidableEq, Repr

/-- Handler of lines 174-179. -/
def get_progress (st : Store) (excel_id : Nat) : ProgressResponse :=
  match st excel_id with
  | some s => ProgressResponse.found s
  | none => ProgressResponse.notFound

/-- Store contents observed `t` seconds after the last update to it.
`processing_progress` is a plain module-level dict (line 42); the source
contains no timer, TTL, eviction thread or deletion of entries, so when no
further request mutates the dict its contents at any later time are exactly
its current contents, independent of `t`. -/
def storeAtSecondsAfterLastUpdate (st : Store) (t : Nat) : Store :=
  st

/-- Input descriptor for one `POST /process` request (lines 262-448):
whether the filename has a recognized extension, whether `pd.read_excel`
succeeds, the decoded column labels and rows, and whether the
`excel_metadata` insert succeeds. -/
structure ProcessInput where
  validExtension : Bool
  readOk : Bool
  columns : List (Option String)
  rows : List (List (String × Option String))
  metadataInsertOk : Bool
  excelId : Nat
  deriving Repr

/-- Response of the `/process` handler. -/
inductive ProcessResponse where
  | badRequest (detail : String)
  | serverError (detail : String)
  | accepted (excelId recordsCount totalColumns : Nat)
  deriving DecidableEq, Repr

/-- Outcome of the synchronous part of one `/process` request: the response,
whether the upload was staged to a temporary file (lines 298-301), whether the
handler itself deleted that file before returning (the `finally` at
lines 438-440 is an explicit no-op on every path), and whether the background
task — the only code that ever unlinks the file (lines 256-260) — was
scheduled (lines 392-401). -/
structure ProcessRun where
  response : ProcessResponse
  tmpStaged : Bool
  tmpDeletedByHandler : Bool
  bgScheduled : Bool
  deriving DecidableEq, Repr

/-- Straight-line model of the `/process` handler (lines 262-448):
extension check (line 292), temp-file staging (lines 298-301), read
(lines 310-317), header cleanup (lines 322-332), record normalization and
filtering (lines 335-342), metadata insert (lines 352-358), background
scheduling (lines 392-401).  On no path does the handler delete the staged
file. -/
def process_excel (inp : ProcessInput) : ProcessRun :=
  if ¬inp.validExtension then
    { response := ProcessResponse.badRequest "El archivo debe ser Excel (.xlsx o .xls)"
      tmpStaged := false, tmpDeletedByHandler := false, bgScheduled := false }
  else if ¬inp.readOk then
    { response := ProcessResponse.serverError "Error al procesar el Excel"
      tmpStaged := true, tmpDeletedByHandler := false, bgScheduled := false }
  else
    let headers := cleanHeaders (rawHeaders inp.columns)
    let records := filterRecords (normalizeRows inp.rows)
    if records.isEmpty then
      { response := ProcessResponse.badRequest "El Excel no contiene datos"
        tmpStaged := true, tmpDeletedByHandler := false, bgScheduled := false }
    else if ¬inp.metadataInsertOk then
      { response := ProcessResponse.serverError "Error guardando en base de datos"
        tmpStaged := true, tmpDeletedByHandler := false, bgScheduled := false }
    else
      { response := ProcessResponse.accepted inp.excelId records.length headers.length
        tmpStaged := true, tmpDeletedByHandler := false, bgScheduled := true }

/-- Record used as concrete input in witnesses and counterexamples. -/
def someRecord : RecordValue :=
  ⟨1, 1, [("a", some "x")], 1⟩

section HeaderLemmas

lemma bumpSeen_cons (a : String) (b : Nat) (rest : List (String × Nat)) (k : String) :
    bumpSeen ((a, b) :: rest) k
      = (if a = k then (a, b + 1) else (a, b)) :: bumpSeen rest k := by
  simp [bumpSeen]

lemma lookup_bumpSeen_self (seen : List (String × Nat)) (k : String) :
    (bumpSeen seen k).lookup k = (seen.lookup k).map (· + 1) := by
  induction seen with
  | nil => rfl
  | cons p rest ih =>
    obtain ⟨a, b⟩ := p
    rw [bumpSeen_cons]
    by_cases hp : a = k
    · subst hp
      simp [List.lookup_cons]
    · have hb : (k == a) = false := by
        simp only [beq_eq_false_iff_ne, ne_eq]
        exact fun h => hp h.symm
      rw [if_neg hp, List.lookup_cons, hb, List.lookup_cons, hb]
      exact ih

lemma lookup_bumpSeen_ne (seen : List (String × Nat)) (k k' : String) (h : k' ≠ k) :
    (bumpSeen seen k).lookup k' = seen.lookup k' := by
  induction seen with
  | nil => rfl
  | cons p rest ih =>
    obtain ⟨a, b⟩ := p
    rw [bumpSeen_cons]
    by_cases hp : a = k
    · have hb : (k' == a) = false := by
        simp only [beq_eq_false_iff_ne, ne_eq]
        exact fun hk => h (hk.trans hp)
      rw [if_pos hp, List.lookup_cons, hb, List.lookup_cons, hb]
      exact ih
    · rw [if_neg hp]
      by_cases hk : k' = a
      · subst hk
        simp [List.lookup_cons]
      · have hb : (k' == a) = false := by simp [beq_eq_false_iff_ne, hk]
        rw [List.lookup_cons, hb, List.lookup_cons, hb]
        exact ih

lemma cleanHeadersAux_eq_spec :
    ∀ (rest p : List String) (seen : List (String × Nat)),
      (∀ h : String, seen.lookup h = if p.count h = 0 then none else some (p.count h)) →
      cleanHeadersAux rest seen = cleanHeadersSpec p rest := by
  intro rest
  induction rest with
  | nil => intro p seen _; rfl
  | cons header t ih =>
    intro p seen hinv
    have hstep :
        cleanHeadersAux (header :: t) seen =
          match seen.lookup header with
          | some n => (header ++ "_" ++ toString n) :: cleanHeadersAux t (bumpSeen seen header)
          | none => header :: cleanHeadersAux t ((header, 1) :: seen) := rfl
    have hspec :
        cleanHeadersSpec p (header :: t) =
          suffixedLabel header (p.count header) :: cleanHeadersSpec (p ++ [header]) t := rfl
    have hcnt_ne : ∀ h : String, h ≠ header → (p ++ [header]).count h = p.count h := by
      intro h hh
      have hb : (header == h) = false := by
        simp only [beq_eq_false_iff_ne, ne_eq]
        exact fun hx => hh hx.symm
      simp [List.count_append, List.count_singleton, hb]
    by_cases hc : p.count header = 0
    · have hlook2 : seen.lookup header = none := by rw [hinv header, if_pos hc]
      rw [hstep, hlook2]
      show header :: cleanHeadersAux t ((header, 1) :: seen) = cleanHeadersSpec p (header :: t)
      rw [hspec, suffixedLabel, if_pos hc]
      congr 1
      apply ih (p ++ [header]) ((header, 1) :: seen)
      intro h
      by_cases hh : h = header
      · subst hh
        simp [List.lookup_cons, List.count_append, hc]
      · have hbeq : (h == header) = false := by simp [beq_eq_false_iff_ne, hh]
        rw [List.lookup_cons, hbeq, hcnt_ne h hh]
        exact hinv h
    · have hlook2 : seen.lookup header = some (p.count header) := by
        rw [hinv header, if_neg hc]
      rw [hstep, hlook2]
      show (header ++ "_" ++ toString (p.count header)) :: cleanHeadersAux t (bumpSeen seen header)
        = cleanHeadersSpec p (header :: t)
      rw [hspec, suffixedLabel, if_neg hc]
      congr 1
      apply ih (p ++ [header]) (bumpSeen seen header)
      intro h
      by_cases hh : h = header
      · subst hh
        rw [lookup_bumpSeen_self, hlook2]
        simp [List.count_append]
      · rw [lookup_bumpSeen_ne seen header h hh, hcnt_ne h hh]
        exact hinv h

end HeaderLemmas

/-- Claim C7 (amended): the cleaned label at each position is the original
label when it has no earlier occurrence, and the original label suffixed with
`_c` when exactly `c` earlier positions carry the same original label; the
output is not guaranteed pairwise distinct (an input label can collide with a
suffixed form, see the counterexample). -/
theorem cleanHeaders_characterization (headers : List String) :
    cleanHeaders headers = cleanHeadersSpec [] headers := by
  apply cleanHeadersAux_eq_spec headers [] []
  intro h
  simp

/-- Claim C7, counterexample to the claim as stated: on input
`["A", "A_1", "A"]` the loop produces `["A", "A_1", "A_1"]`, which is not a
sequence of pairwise-distinct strings. -/
theorem cleanHeaders_not_nodup_counterexample :
    cleanHeaders ["A", "A_1", "A"] = ["A", "A_1", "A_1"] ∧
    ¬ (cleanHeaders ["A", "A_1", "A"]).Nodup := by
  constructor
  · decide
  · decide

lemma rawHeadersAux_getD (cols : List (Option String)) :
    ∀ (j i : Nat), i < cols.length →
      (rawHeadersAux j cols).getD i "" = headerLabel (j + i) (cols.getD i none) := by
  induction cols with
  | nil => intro j i hi; simp at hi
  | cons c cs ih =>
    intro j i hi
    cases i with
    | zero => simp [rawHeadersAux]
    | succ i =>
      have hi2 : i < cs.length := by simpa using hi
      have := ih (j + 1) i hi2
      simpa [rawHeadersAux, Nat.add_assoc, Nat.add_comm 1 i] using this

/-- Claim C8 (amended): at each position, a missing (NaN) declared label is
replaced by the Spanish placeholder `"Columna_<position>"` with the 1-based
position, while a present label — blank included — is merely stripped of
surrounding whitespace, never replaced by a placeholder. -/
theorem header_synthesis_characterization (cols : List (Option String)) (i : Nat)
    (hi : i < cols.length) :
    (cols.getD i none = none →
        (rawHeaders cols).getD i "" = "Columna_" ++ toString (i + 1)) ∧
    (∀ s, cols.getD i none = some s → (rawHeaders cols).getD i "" = pyStrip s) := by
  have hbase := rawHeadersAux_getD cols 0 i hi
  constructor
  · intro hnone
    rw [rawHeaders, hbase, hnone]
    simp [headerLabel]
  · intro s hsome
    rw [rawHeaders, hbase, hsome]
    simp [headerLabel]

/-- Claim C8, witness: the characterization applied to the concrete column
list `[none, some "  x "]`. -/
theorem header_synthesis_characterization_witness :
    (rawHeaders [none, some "  x "]).getD 0 "" = "Columna_1" ∧
    (rawHeaders [none, some "  x "]).getD 1 "" = "x" := by
  constructor
  · exact (header_synthesis_characterization [none, some "  x "] 0 (by decide)).1 rfl
  · have h := (header_synthesis_characterization [none, some "  x "] 1 (by decide)).2 "  x " rfl
    rw [h]
    decide

/-- Claim C8, counterexample to the claim as stated: a missing label at
position 1 becomes `"Columna_1"`, not `"Column_1"`, and a blank label is not
replaced by any placeholder — it is stripped to the empty string. -/
theorem columna_placeholder_counterexample :
    rawHeaders [none] = ["Columna_1"] ∧
    ("Columna_1" : String) ≠ "Column_1" ∧
    rawHeaders [some ""] = [""] := by
  refine ⟨by decide, by decide, by decide⟩

section NormalizerLemmas

lemma cleanedRecord_isEmpty_iff (r : List (String × Option String)) :
    (cleanedRecord r).isEmpty = true ↔ rowSurvives r = false := by
  simp only [cleanedRecord, rowSurvives, List.isEmpty_iff, List.filter_eq_nil_iff,
    List.any_eq_false]

lemma buildAllValuesAux_map_rowIndex (u e : Nat) :
    ∀ (l : List (List (String × Option String))) (i : Nat),
      (buildAllValuesAux u e i l).map (fun v => v.rowIndex)
        = List.range' i ((buildAllValuesAux u e i l).length) := by
  intro l
  induction l with
  | nil => intro i; rfl
  | cons r t ih =>
    intro i
    by_cases hr : (cleanedRecord r).isEmpty
    · simp only [buildAllValuesAux, if_pos hr]
      exact ih i
    · simp only [buildAllValuesAux, if_neg hr, List.map_cons, List.length_cons,
        List.range'_succ]
      rw [ih (i + 1)]

lemma buildAllValuesAux_length_of_survives (u e : Nat) :
    ∀ (l : List (List (String × Option String))) (i : Nat),
      (∀ r ∈ l, rowSurvives r = true) →
      (buildAllValuesAux u e i l).length = l.length := by
  intro l
  induction l with
  | nil => intro i _; rfl
  | cons r t ih =>
    intro i hall
    have hr : ¬ (cleanedRecord r).isEmpty = true := by
      rw [cleanedRecord_isEmpty_iff]
      simp [hall r (List.mem_cons_self r t)]
    simp only [buildAllValuesAux, if_neg hr, List.length_cons]
    rw [ih (i + 1) fun x hx => hall x (List.mem_cons_of_mem r hx)]

end NormalizerLemmas

/-- Claim C5: over the full normalization pipeline (na-token replacement,
empty-row filtering, `all_values` construction), the `rowIndex` values of the
materialized records are exactly `1, 2, ..., N` with no gaps, where `N` is the
number of rows that still have at least one real field after normalization —
however many source rows were dropped. -/
theorem sequence_indices_dense (user_id excel_id : Nat)
    (rows : List (List (String × Option String))) :
    (buildAllValues user_id excel_id (filterRecords (normalizeRows rows))).map
        (fun v => v.rowIndex)
      = List.range' 1 ((filterRecords (normalizeRows rows)).length) := by
  have hsurv : ∀ r ∈ filterRecords (normalizeRows rows), rowSurvives r = true := by
    intro r hr
    exact (List.mem_filter.mp hr).2
  rw [buildAllValues, buildAllValuesAux_map_rowIndex,
    buildAllValuesAux_length_of_survives user_id excel_id _ 1 hsurv]

/-- Claim C6: a row whose every field is one of the literal na tokens or
absent does not survive filtering (and is dropped from the filtered record
list); a row with at least one real field survives; and for any row, the
materialized payload contains exactly the fields that are non-null and
non-blank after normalization — null/blank fields are absent, not padded. -/
theorem empty_row_dropped_sparse_payload (r : List (String × Option String)) :
    ((∀ kv ∈ r, kv.2 = none ∨ ∃ s, kv.2 = some s ∧ s ∈ naTokens) →
        rowSurvives (normalizeRow r) = false ∧ filterRecords [normalizeRow r] = []) ∧
    ((∃ kv ∈ r, isRealValue (cleanCell kv.2) = true) →
        rowSurvives (normalizeRow r) = true) ∧
    (∀ (k : String) (v : Option String),
        (k, v) ∈ cleanedRecord (normalizeRow r) ↔
          ∃ w, (k, w) ∈ r ∧ cleanCell w = v ∧ isRealValue v = true) := by
  refine ⟨?_, ?_, ?_⟩
  · intro hall
    have hfalse : rowSurvives (normalizeRow r) = false := by
      simp only [rowSurvives, normalizeRow, List.any_map, List.any_eq_false]
      intro kv hkv
      rcases hall kv hkv with hnone | ⟨s, hs, htok⟩
      · simp [Function.comp, hnone, cleanCell, isRealValue]
      · simp [Function.comp, hs, cleanCell, htok, isRealValue]
    exact ⟨hfalse, by simp [filterRecords, hfalse]⟩
  · intro ⟨kv, hkv, hreal⟩
    simp only [rowSurvives, normalizeRow, List.any_map, List.any_eq_true]
    exact ⟨kv, hkv, by simpa [Function.comp] using hreal⟩
  · intro k v
    simp only [cleanedRecord, normalizeRow, List.mem_filter, List.mem_map]
    constructor
    · rintro ⟨⟨⟨k2, w⟩, hmem, heq⟩, hreal⟩
      have hk : k2 = k := congrArg Prod.fst heq
      have hv : cleanCell w = v := congrArg Prod.snd heq
      subst hk
      exact ⟨w, hmem, hv, hreal⟩
    · rintro ⟨w, hmem, hv, hreal⟩
      exact ⟨⟨⟨k, w⟩, hmem, by simp [hv]⟩, hreal⟩

/-- Claim C6, witness: a row of only na tokens and a missing value is dropped;
a row with one real value and a blank survives with a payload holding exactly
the real field. -/
theorem empty_row_dropped_sparse_payload_witness :
    rowSurvives (normalizeRow [("a", some "NULL"), ("b", none)]) = false ∧
    rowSurvives (normalizeRow [("a", some "x"), ("b", some "")]) = true ∧
    (("a", some "x") ∈ cleanedRecord (normalizeRow [("a", some "x"), ("b", some "")]) ↔
      ∃ w, ("a", w) ∈ [("a", some "x"), ("b", some "")] ∧
        cleanCell w = some "x" ∧ isRealValue (some "x") = true) := by
  refine ⟨?_, ?_, ?_⟩
  · exact ((empty_row_dropped_sparse_payload [("a", some "NULL"), ("b", none)]).1
      (by decide)).1
  · exact (empty_row_dropped_sparse_payload [("a", some "x"), ("b", some "")]).2.1
      (by decide)
  · exact (empty_row_dropped_sparse_payload [("a", some "x"), ("b", some "")]).2.2
      "a" (some "x")

section PersisterLemmas

lemma snapWrites_nil : snapWrites [] = [] := rfl

lemma snapWrites_cons_wrote (b : List RecordValue) (l : List BGEvent) :
    snapWrites (BGEvent.wrote b :: l) = snapWrites l := rfl

lemma snapWrites_cons_update (s : Snapshot) (l : List BGEvent) :
    snapWrites (BGEvent.progressUpdate s :: l) = s :: snapWrites l := rfl

lemma snapWrites_cons_commit (l : List BGEvent) :
    snapWrites (BGEvent.commit :: l) = snapWrites l := rfl

lemma snapWrites_cons_rollback (l : List BGEvent) :
    snapWrites (BGEvent.rollback :: l) = snapWrites l := rfl

lemma snapWrites_cons_unlink (l : List BGEvent) :
    snapWrites (BGEvent.unlinkTmp :: l) = snapWrites l := rfl

lemma snapWrites_append (a b : List BGEvent) :
    snapWrites (a ++ b) = snapWrites a ++ snapWrites b :=
  List.filterMap_append a b _

lemma runLoopN_zero (values : List RecordValue) (total : Nat) (failAt : Option Nat)
    (errMsg : String) (i k : Nat) :
    runLoopN values total failAt errMsg 0 i k
      = [BGEvent.commit, BGEvent.progressUpdate (completedSnapshot values.length total)] := rfl

lemma runLoopN_succ_none (values : List RecordValue) (total : Nat) (errMsg : String)
    (m i k : Nat) :
    runLoopN values total none errMsg (m + 1) i k
      = BGEvent.wrote ((values.drop i).take BATCH_SIZE) ::
          BGEvent.progressUpdate (procSnapshot values.length total i) ::
            runLoopN values total none errMsg m (i + BATCH_SIZE) (k + 1) := by
  simp [runLoopN]

lemma runLoopN_succ_fail_here (values : List RecordValue) (total : Nat) (errMsg : String)
    (m i k : Nat) :
    runLoopN values total (some k) errMsg (m + 1) i k
      = [BGEvent.rollback, BGEvent.progressUpdate (errorSnapshot errMsg)] := by
  simp [runLoopN]

lemma runLoopN_succ_fail_later (values : List RecordValue) (total : Nat) (errMsg : String)
    (m i k kf : Nat) (h : kf ≠ k) :
    runLoopN values total (some kf) errMsg (m + 1) i k
      = BGEvent.wrote ((values.drop i).take BATCH_SIZE) ::
          BGEvent.progressUpdate (procSnapshot values.length total i) ::
            runLoopN values total (some kf) errMsg m (i + BATCH_SIZE) (k + 1) := by
  simp [runLoopN, h]

lemma snapWrites_runLoopN_none (values : List RecordValue) (total : Nat) (errMsg : String) :
    ∀ (m i k : Nat),
      snapWrites (runLoopN values total none errMsg m i k)
        = ((List.range m).map fun j => procSnapshot values.length total (i + j * BATCH_SIZE))
            ++ [completedSnapshot values.length total] := by
  intro m
  induction m with
  | zero => intro i k; rfl
  | succ m ih =>
    intro i k
    rw [runLoopN_succ_none, snapWrites_cons_wrote, snapWrites_cons_update, ih (i + BATCH_SIZE)]
    rw [List.range_succ_eq_map, List.map_cons, List.map_map]
    have hfun :
        ((fun j => procSnapshot values.length total (i + j * BATCH_SIZE)) ∘ Nat.succ)
          = fun j => procSnapshot values.length total (i + BATCH_SIZE + j * BATCH_SIZE) := by
      funext j
      simp only [Function.comp]
      congr 1
      rw [Nat.succ_mul]
      ring
    rw [hfun]
    simp

lemma snapWrites_runLoopN_fail (values : List RecordValue) (total : Nat) (errMsg : String)
    (kf : Nat) :
    ∀ (m i k : Nat), k ≤ kf → kf < k + m →
      snapWrites (runLoopN values total (some kf) errMsg m i k)
        = ((List.range (kf - k)).map fun j =>
              procSnapshot values.length total (i + j * BATCH_SIZE))
            ++ [errorSnapshot errMsg] := by
  intro m
  induction m with
  | zero => intro i k h1 h2; omega
  | succ m ih =>
    intro i k h1 h2
    by_cases hk : kf = k
    · subst hk
      rw [runLoopN_succ_fail_here]
      simp [snapWrites_cons_rollback, snapWrites_cons_update, snapWrites_nil]
    · rw [runLoopN_succ_fail_later values total errMsg m i k kf hk,
        snapWrites_cons_wrote, snapWrites_cons_update,
        ih (i + BATCH_SIZE) (k + 1) (by omega) (by omega)]
      have hsub : kf - k = (kf - (k + 1)) + 1 := by omega
      rw [hsub, List.range_succ_eq_map, List.map_cons, List.map_map]
      have hfun :
          ((fun j => procSnapshot values.length total (i + j * BATCH_SIZE)) ∘ Nat.succ)
            = fun j => procSnapshot values.length total (i + BATCH_SIZE + j * BATCH_SIZE) := by
        funext j
        simp only [Function.comp]
        congr 1
        rw [Nat.succ_mul]
        ring
      rw [hfun]
      simp

lemma commit_not_mem_runLoopN_fail (values : List RecordValue) (total : Nat)
    (errMsg : String) (kf : Nat) :
    ∀ (m i k : Nat), k ≤ kf → kf < k + m →
      BGEvent.commit ∉ runLoopN values total (some kf) errMsg m i k := by
  intro m
  induction m with
  | zero => intro i k h1 h2; omega
  | succ m ih =>
    intro i k h1 h2
    by_cases hk : kf = k
    · subst hk
      rw [runLoopN_succ_fail_here]
      simp
    · rw [runLoopN_succ_fail_later values total errMsg m i k kf hk]
      simp only [List.mem_cons, not_or]
      exact ⟨by simp, by simp, ih (i + BATCH_SIZE) (k + 1) (by omega) (by omega)⟩

lemma foldl_committed_of_commit_not_mem :
    ∀ (p : List BGEvent) (st : DBState), BGEvent.commit ∉ p →
      (p.foldl applyEvent st).committed = st.committed := by
  intro p
  induction p with
  | nil => intro st _; rfl
  | cons e t ih =>
    intro st hmem
    have he : e ≠ BGEvent.commit := fun h => hmem (h ▸ List.mem_cons_self e t)
    have ht : BGEvent.commit ∉ t := fun h => hmem (List.mem_cons_of_mem e h)
    rw [List.foldl_cons, ih (applyEvent st e) ht]
    cases e with
    | wrote b => rfl
    | progressUpdate s => rfl
    | commit => exact absurd rfl he
    | rollback => rfl
    | unlinkTmp => rfl

lemma length_le_numBatches_mul (n : Nat) : n ≤ numBatches n * BATCH_SIZE := by
  simp only [numBatches, BATCH_SIZE]
  have h1 := Nat.div_add_mod (n + 5000 - 1) 5000
  have h2 : (n + 5000 - 1) % 5000 < 5000 := Nat.mod_lt _ (by norm_num)
  omega

lemma foldl_runLoopN_none (values : List RecordValue) (total : Nat) (errMsg : String) :
    ∀ (m i k : Nat) (st : DBState), values.length ≤ i + m * BATCH_SIZE →
      (runLoopN values total none errMsg m i k).foldl applyEvent st
        = { committed := st.committed ++ st.pending ++ values.drop i, pending := [] } := by
  intro m
  induction m with
  | zero =>
    intro i k st hlen
    rw [runLoopN_zero]
    have hdrop : values.drop i = [] := List.drop_eq_nil_of_le (by simpa using hlen)
    simp [applyEvent, hdrop]
  | succ m ih =>
    intro i k st hlen
    rw [runLoopN_succ_none, List.foldl_cons, List.foldl_cons]
    have hlen2 : values.length ≤ (i + BATCH_SIZE) + m * BATCH_SIZE := by
      have hs : (m + 1) * BATCH_SIZE = m * BATCH_SIZE + BATCH_SIZE := Nat.succ_mul m BATCH_SIZE
      omega
    have hstep :
        applyEvent (applyEvent st (BGEvent.wrote ((values.drop i).take BATCH_SIZE)))
            (BGEvent.progressUpdate (procSnapshot values.length total i))
          = { committed := st.committed
              pending := st.pending ++ (values.drop i).take BATCH_SIZE } := rfl
    rw [hstep, ih (i + BATCH_SIZE) (k + 1) _ hlen2]
    have hjoin :
        (st.pending ++ (values.drop i).take BATCH_SIZE) ++ values.drop (i + BATCH_SIZE)
          = st.pending ++ values.drop i := by
      rw [List.append_assoc, ← List.drop_drop, List.take_append_drop]
    rw [List.append_assoc st.committed, hjoin, ← List.append_assoc]

lemma replay_bgEvents_none (c0 values : List RecordValue) (total : Nat) (errMsg : String) :
    replay c0 (bgEvents values total none errMsg)
      = { committed := c0 ++ values, pending := [] } := by
  rw [replay, bgEvents, List.foldl_append,
    foldl_runLoopN_none values total errMsg (numBatches values.length) 0 0 _
      (by simpa using length_le_numBatches_mul values.length)]
  simp [applyEvent]

lemma bg_fail_getLast (values : List RecordValue) (total : Nat) (errMsg : String)
    (k : Nat) (hk : k < numBatches values.length) :
    (snapWrites (bgEvents values total (some k) errMsg)).getLast?
      = some (errorSnapshot errMsg) := by
  rw [bgEvents, snapWrites_append,
    snapWrites_runLoopN_fail values total errMsg k (numBatches values.length) 0 0
      (Nat.zero_le k) (by omega)]
  simp [snapWrites_cons_unlink, snapWrites_nil]

end PersisterLemmas

section TraceLemmas

lemma map_const_replicate {α β : Type} (c : β) :
    ∀ (l : List α), (l.map fun _ => c) = List.replicate l.length c := by
  intro l
  induction l with
  | nil => rfl
  | cons a t ih => simp [List.replicate_succ, ih]

lemma bg_snapWrites_none (values : List RecordValue) (total : Nat) (errMsg : String) :
    snapWrites (bgEvents values total none errMsg)
      = ((List.range (numBatches values.length)).map fun j =>
            procSnapshot values.length total (0 + j * BATCH_SIZE))
          ++ [completedSnapshot values.length total] := by
  rw [bgEvents, snapWrites_append, snapWrites_runLoopN_none]
  simp [snapWrites_cons_unlink, snapWrites_nil]

lemma bg_processed_list_none (values : List RecordValue) (total : Nat) (errMsg : String) :
    (snapWrites (bgEvents values total none errMsg)).map (fun s => s.processed)
      = ((List.range (numBatches values.length)).map fun j =>
            min ((j + 1) * BATCH_SIZE) values.length)
          ++ [values.length] := by
  rw [bg_snapWrites_none, List.map_append, List.map_map]
  have hfun :
      ((fun s => s.processed) ∘ fun j =>
          procSnapshot values.length total (0 + j * BATCH_SIZE))
        = fun j => min ((j + 1) * BATCH_SIZE) values.length := by
    funext j
    simp only [Function.comp, procSnapshot]
    congr 1
    rw [Nat.succ_mul]
    ring
  rw [hfun]
  simp [completedSnapshot]

lemma bg_status_list_none (values : List RecordValue) (total : Nat) (errMsg : String) :
    (snapWrites (bgEvents values total none errMsg)).map (fun s => s.status)
      = List.replicate (numBatches values.length) Status.processing
          ++ [Status.completed] := by
  rw [bg_snapWrites_none, List.map_append, List.map_map]
  have hfun :
      ((fun s => s.status) ∘ fun j =>
          procSnapshot values.length total (0 + j * BATCH_SIZE))
        = fun _ => Status.processing := by
    funext j
    simp [Function.comp, procSnapshot]
  rw [hfun, map_const_replicate]
  simp [completedSnapshot]

lemma chain'_map_range_append (n : Nat) :
    ∀ (m : Nat) (f : Nat → Nat), (∀ j, f j ≤ f (j + 1)) → (∀ j, f j ≤ n) →
      List.Chain' (· ≤ ·) (((List.range m).map f) ++ [n]) := by
  intro m
  induction m with
  | zero =>
    intro f _ _
    simp [List.chain'_singleton]
  | succ m ih =>
    intro f hmono hbound
    rw [List.range_succ_eq_map, List.map_cons, List.map_map, List.cons_append]
    apply List.chain'_cons'.mpr
    constructor
    · intro y hy
      cases m with
      | zero =>
        simp at hy
        subst hy
        exact hbound 0
      | succ m2 =>
        rw [List.range_succ_eq_map] at hy
        simp only [List.map_cons, List.cons_append, List.head?_cons, Option.mem_def,
          Option.some.injEq] at hy
        subst hy
        simpa using hmono 0
    · have := ih (fun j => f (j + 1)) (fun j => hmono (j + 1)) (fun j => hbound (j + 1))
      simpa [Function.comp] using this

lemma applyStoreWrites_same_id :
    ∀ (ws : List Snapshot) (s : Snapshot), ws.getLast? = some s →
      ∀ (st : Store) (id : Nat),
        applyStoreWrites st (ws.map fun x => (id, x)) id = some s := by
  intro ws
  induction ws with
  | nil => intro s hs; simp at hs
  | cons a l ih =>
    intro s hs st id
    cases l with
    | nil =>
      have ha : a = s := by simpa using hs
      subst ha
      simp [applyStoreWrites, setStore]
    | cons b t =>
      rw [List.getLast?_cons_cons] at hs
      have := ih s hs (setStore st id a) id
      simpa [applyStoreWrites] using this

end TraceLemmas

/-- Claim C1: when the batch write with 0-based index `k` fails during the
background run (any `k` within the run), replaying the run's effects retains
no record from any batch — the committed table is unchanged — and the final
progress write has status `error`; moreover, for any run, as long as no
commit event has occurred the committed table is unchanged, and a failure-free
run commits all records as one unit. -/
theorem batch_failure_rolls_back (c0 values : List RecordValue) (total : Nat)
    (errMsg : String) (failAt : Option Nat) (k : Nat) :
    (failAt = some k → k < numBatches values.length →
        (replay c0 (bgEvents values total failAt errMsg)).committed = c0 ∧
        (snapWrites (bgEvents values total failAt errMsg)).getLast?
            = some (errorSnapshot errMsg) ∧
        (errorSnapshot errMsg).status = Status.error) ∧
    (∀ p, p <+: bgEvents values total failAt errMsg → BGEvent.commit ∉ p →
        (replay c0 p).committed = c0) ∧
    (failAt = none →
        (replay c0 (bgEvents values total failAt errMsg)).committed = c0 ++ values) := by
  refine ⟨?_, ?_, ?_⟩
  · intro hf hk
    subst hf
    have hnc : BGEvent.commit ∉ bgEvents values total (some k) errMsg := by
      rw [bgEvents]
      intro hmem
      rcases List.mem_append.mp hmem with h | h
      · exact commit_not_mem_runLoopN_fail values total errMsg k
          (numBatches values.length) 0 0 (Nat.zero_le k) (by omega) h
      · simp at h
    refine ⟨?_, bg_fail_getLast values total errMsg k hk, rfl⟩
    exact foldl_committed_of_commit_not_mem _ _ hnc
  · intro p _hp hnc
    exact foldl_committed_of_commit_not_mem p _ hnc
  · intro hf
    subst hf
    rw [replay_bgEvents_none]

/-- Claim C1, witness: a one-batch run whose single batch write fails retains
nothing and ends in an error snapshot. -/
theorem batch_failure_rolls_back_witness :
    (replay [] (bgEvents [someRecord] 1 (some 0) "boom")).committed = [] ∧
    (snapWrites (bgEvents [someRecord] 1 (some 0) "boom")).getLast?
        = some (errorSnapshot "boom") ∧
    (errorSnapshot "boom").status = Status.error :=
  (batch_failure_rolls_back [] [someRecord] 1 "boom" (some 0) 0).1 rfl (by decide)

/-- Claim C2: on a failure-free background run over `N` records with total
`N`, the progress writes are exactly one per batch — `ceil(N / 5000)` of them,
the `k`-th (0-based) carrying `processedCount = min((k+1)·5000, N)`, i.e. the
cumulative rows written, the last batch possibly smaller — followed by one
final write with status `completed` and `processedCount = total`. -/
theorem batch_progress_updates (values : List RecordValue) (total : Nat)
    (errMsg : String) (hne : values ≠ []) (htot : total = values.length) :
    (snapWrites (bgEvents values total none errMsg)).map (fun s => s.processed)
        = (((List.range (numBatches values.length)).map fun k =>
              min ((k + 1) * BATCH_SIZE) values.length) ++ [total]) ∧
    (snapWrites (bgEvents values total none errMsg)).map (fun s => s.status)
        = List.replicate (numBatches values.length) Status.processing
            ++ [Status.completed] ∧
    numBatches values.length = (values.length + BATCH_SIZE - 1) / BATCH_SIZE ∧
    (snapWrites (bgEvents values total none errMsg)).getLast?
        = some (completedSnapshot values.length total) ∧
    (completedSnapshot values.length total).processed = total := by
  refine ⟨?_, bg_status_list_none values total errMsg, rfl, ?_, by simp [completedSnapshot, htot]⟩
  · rw [bg_processed_list_none, htot]
  · rw [bg_snapWrites_none]
    exact List.getLast?_concat _

/-- Claim C2, witness: two records form a single smaller-than-5000 batch, one
processing update with cumulative count 2, then the completed update. -/
theorem batch_progress_updates_witness :
    (snapWrites (bgEvents [someRecord, someRecord] 2 none "x")).map (fun s => s.processed)
        = [2, 2] ∧
    (snapWrites (bgEvents [someRecord, someRecord] 2 none "x")).map (fun s => s.status)
        = [Status.processing, Status.completed] := by
  have h := batch_progress_updates [someRecord, someRecord] 2 "x" (by decide) (by decide)
  exact ⟨by rw [h.1]; decide, by rw [h.2.1]; decide⟩

/-- Claim C3, counterexample to the claim as stated: for a job of 5001 records
whose second batch write fails, the stored `processed` values over the job's
lifetime are `0, 5000, 0` — the error write resets `processed` to `0`, so the
sequence is not monotonically non-decreasing. -/
theorem error_write_resets_processed_counterexample :
    ¬ List.Chain' (· ≤ ·)
      ((jobSnapTrace (List.replicate 5001 someRecord) 5001 (some 1) "boom").map
        (fun s => s.processed)) := by
  have hlen : (List.replicate 5001 someRecord).length = 5001 := List.length_replicate _ _
  have hsw :
      snapWrites (bgEvents (List.replicate 5001 someRecord) 5001 (some 1) "boom")
        = [procSnapshot (List.replicate 5001 someRecord).length 5001 0,
            errorSnapshot "boom"] := by
    rw [bgEvents, snapWrites_append,
      snapWrites_runLoopN_fail (List.replicate 5001 someRecord) 5001 "boom" 1
        (numBatches (List.replicate 5001 someRecord).length) 0 0 (by omega)
        (by rw [hlen]; norm_num [numBatches, BATCH_SIZE])]
    simp only [Nat.sub_zero, List.range_succ, List.range_zero, List.nil_append,
      List.map_cons, List.map_nil, snapWrites_cons_unlink, snapWrites_nil,
      List.append_nil, Nat.zero_mul, Nat.add_zero]
    rfl
  have hmap :
      (jobSnapTrace (List.replicate 5001 someRecord) 5001 (some 1) "boom").map
          (fun s => s.processed)
        = [0, 5000, 0] := by
    rw [jobSnapTrace, hsw, hlen]
    simp only [List.map_cons, List.map_nil]
    norm_num [initialSnapshot, procSnapshot, errorSnapshot, BATCH_SIZE]
  rw [hmap]
  intro hch
  rw [List.chain'_cons, List.chain'_cons] at hch
  exact absurd hch.2.1 (by omega)

/-- Claim C3 (amended): over a failure-free job lifetime — initial
registration, per-batch updates and the completed terminal write — the stored
`processedCount` is monotonically non-decreasing; the error write, however,
resets `processedCount` to 0 and can decrease it. -/
theorem processed_monotone_on_success (values : List RecordValue) (total : Nat)
    (errMsg : String) :
    List.Chain' (· ≤ ·)
      ((jobSnapTrace values total none errMsg).map (fun s => s.processed)) := by
  rw [jobSnapTrace, List.map_cons, bg_processed_list_none]
  have hinit : (initialSnapshot total).processed = 0 := rfl
  rw [hinit]
  apply List.chain'_cons'.mpr
  refine ⟨fun y _ => Nat.zero_le y, ?_⟩
  apply chain'_map_range_append values.length (numBatches values.length)
  · intro j
    exact min_le_min (Nat.mul_le_mul_right BATCH_SIZE (by omega)) le_rfl
  · intro j
    exact min_le_right _ _

/-- Claim C4, counterexample to the claim as stated: an entry written with a
terminal `completed` snapshot is still present 301 seconds (more than five
minutes) after its last update, because the source has no eviction mechanism
at all — the store between requests is constant in time. -/
theorem no_eviction_counterexample :
    storeAtSecondsAfterLastUpdate
        (setStore (fun _ => none) 7 (completedSnapshot 1 1)) 301 7
      = some (completedSnapshot 1 1) := rfl

/-- Claim C4 (amended): the Progress Store never evicts: every mutation the
source performs on `processing_progress` is a plain assignment, so after any
sequence of further updates an existing `jobId` entry is still present
(possibly overwritten), for the lifetime of the process. -/
theorem store_entries_persist (st : Store) (ws : List (Nat × Snapshot)) (j : Nat)
    (s : Snapshot) (h : st j = some s) :
    ∃ s2, applyStoreWrites st ws j = some s2 := by
  induction ws generalizing st s with
  | nil => exact ⟨s, h⟩
  | cons w t ih =>
    by_cases hw : j = w.1
    · have hset : setStore st w.1 w.2 j = some w.2 := by simp [setStore, hw]
      exact ih (setStore st w.1 w.2) w.2 hset
    · have hset : setStore st w.1 w.2 j = some s := by simp [setStore, hw, h]
      exact ih (setStore st w.1 w.2) s hset

/-- Claim C4, witness: an entry for job 7 survives a later write to job 9. -/
theorem store_entries_persist_witness :
    ∃ s2, applyStoreWrites (setStore (fun _ => none) 7 (completedSnapshot 1 1))
        [(9, initialSnapshot 3)] 7 = some s2 :=
  store_entries_persist (setStore (fun _ => none) 7 (completedSnapshot 1 1))
    [(9, initialSnapshot 3)] 7 (completedSnapshot 1 1) rfl

/-- Claim C10: when the background run for a job fails on batch `k`, the entry
stored for the job — and returned by `GET /progress/{jobId}` — is exactly the
zeroed error snapshot: `progress = 0`, `total = 0`, `processed = 0`,
`status = error` with the failure detail; earlier totals and counts are
discarded. -/
theorem error_snapshot_zeroes_counts (st : Store) (id : Nat)
    (values : List RecordValue) (total : Nat) (errMsg : String) (k : Nat)
    (hk : k < numBatches values.length) :
    get_progress (storeAfterBG st id values total (some k) errMsg) id
        = ProgressResponse.found (errorSnapshot errMsg) ∧
    (errorSnapshot errMsg).progress = 0 ∧
    (errorSnapshot errMsg).total = 0 ∧
    (errorSnapshot errMsg).processed = 0 ∧
    (errorSnapshot errMsg).status = Status.error ∧
    (errorSnapshot errMsg).errorDetail = some errMsg := by
  have hlast := bg_fail_getLast values total errMsg k hk
  have hlookup := applyStoreWrites_same_id _ _ hlast st id
  refine ⟨?_, rfl, rfl, rfl, rfl, rfl⟩
  rw [get_progress, storeAfterBG, hlookup]

/-- Claim C10, witness: a one-batch job that fails on batch 0 polls back the
zeroed error snapshot. -/
theorem error_snapshot_zeroes_counts_witness :
    get_progress (storeAfterBG (fun _ => none) 7 [someRecord] 1 (some 0) "db down") 7
        = ProgressResponse.found (errorSnapshot "db down") ∧
    (errorSnapshot "db down").total = 0 :=
  ⟨(error_snapshot_zeroes_counts (fun _ => none) 7 [someRecord] 1 "db down" 0
      (by decide)).1,
    (error_snapshot_zeroes_counts (fun _ => none) 7 [someRecord] 1 "db down" 0
      (by decide)).2.2.1⟩

/-- Claim C9, code bug: on the empty-source rejection path the upload has
already been staged to a temporary file, the handler's own `finally` is a
no-op, and the background task — the only code that unlinks the staged file —
is never scheduled, so the staging copy is not released on this exit path.
When the background task does run, its trace always contains the unlink,
whether it commits or fails. -/
theorem tmp_file_leak_on_empty_source :
    (process_excel
        { validExtension := true, readOk := true, columns := [some "a"],
          rows := [[("a", some "NULL")]], metadataInsertOk := true, excelId := 1 }).response
        = ProcessResponse.badRequest "El Excel no contiene datos" ∧
    (process_excel
        { validExtension := true, readOk := true, columns := [some "a"],
          rows := [[("a", some "NULL")]], metadataInsertOk := true, excelId := 1 }).tmpStaged
        = true ∧
    (process_excel
        { validExtension := true, readOk := true, columns := [some "a"],
          rows := [[("a", some "NULL")]], metadataInsertOk := true, excelId := 1 }).tmpDeletedByHandler
        = false ∧
    (process_excel
        { validExtension := true, readOk := true, columns := [some "a"],
          rows := [[("a", some "NULL")]], metadataInsertOk := true, excelId := 1 }).bgScheduled
        = false ∧
    BGEvent.unlinkTmp ∈ bgEvents [someRecord] 1 none "" ∧
    BGEvent.unlinkTmp ∈ bgEvents [someRecord] 1 (some 0) "db error" := by
  refine ⟨by decide, by decide, by decide, by decide, by decide, by decide⟩

end ExcelProcessor
